import Mathlib

/-!
# Verification of `scripts/ai_review.js`

Shallow embedding of the batch code-review script: a recursive directory
walk with a fixed exclusion set, a sequential per-file review loop
accumulating a markdown report and a list of extracted summary tables,
and a final consolidated summary section.

External effects are made explicit:
* the filesystem is a tree of named entries (`FSEntry`);
* the per-file review (file read + prompt construction + network call of
  `analyzeFile`) is an oracle `svc : String → Except String String`
  mapping a file path to either the feedback text or a thrown error
  message (read failure and service failure are caught identically by
  the `try/catch` in `main`);
* `process.env.GEMINI_API_KEY` is an `Option String` (`none` = unset);
  JavaScript's `!apiKey` is true for `undefined` and for `""`.

Machine strings are modelled as Lean `String`s / `List Char`; the
JavaScript regular expression used for table extraction is embedded as
an explicit backtracking matcher specialised to the pattern
`/(\|.*?\n)+\|.*?/s`.
-/

namespace AiReview

/-! ## String helpers (JavaScript `indexOf`, `endsWith`, `trim`) -/

/-- `pat` is a prefix of `hay` (char-exact). -/
def startsWithL : List Char → List Char → Bool
  | [], _ => true
  | _ :: _, [] => false
  | p :: ps, h :: hs => p = h && startsWithL ps hs

/-- JavaScript `s.endsWith(suffix)`. -/
def endsWithL (s suffix : String) : Bool :=
  startsWithL suffix.data.reverse s.data.reverse

/-- Index (from `i`) of the first occurrence of `pat` in the suffix. -/
def findSubAux (pat : List Char) : List Char → Nat → Option Nat
  | [], i => if startsWithL pat [] then some i else none
  | h :: t, i =>
    if startsWithL pat (h :: t) then some i else findSubAux pat t (i + 1)

/-- JavaScript `hay.indexOf(pat)`: index of the first occurrence of
`pat` in `hay`, `none` standing for `-1`. -/
def findSub (hay pat : List Char) : Option Nat := findSubAux pat hay 0

/-- The character set JavaScript `String.prototype.trim` strips
(WhiteSpace and LineTerminator code points). -/
def jsWhitespace (c : Char) : Bool :=
  c = ' ' || c = '\t' || c = '\n' || c = '\r' ||
  c = '\x0b' || c = '\x0c' || c = '\u00A0' || c = '\u1680' ||
  c = '\u2028' || c = '\u2029' || c = '\u202F' || c = '\u205F' ||
  c = '\u3000' || c = '\uFEFF' || (0x2000 ≤ c.toNat && c.toNat ≤ 0x200A)

/-- JavaScript `s.trim()`. -/
def jsTrim (l : List Char) : List Char :=
  ((l.dropWhile jsWhitespace).reverse.dropWhile jsWhitespace).reverse

/-! ## Filesystem model and `walk` (ai_review.js lines 59–76) -/

/-- A directory entry: a plain file or a directory with ordered children
(the order is the order `fs.readdirSync` returns the names in). -/
inductive FSEntry where
  | file (name : String)
  | dir (name : String) (children : List FSEntry)

/-- `path.join(dir, f)` for a plain name `f` under a non-empty `dir`. -/
def pathJoin (dir f : String) : String := dir ++ "/" ++ f

/-- The directory names `walk` skips (line 66). -/
def excludedDirs : List String := ["node_modules", "tests", "reports"]

mutual

/-- One `for (const f of files)` iteration of `walk` (lines 61–73): an
excluded-name directory is skipped entirely; every other directory is
recursed into; a non-directory entry whose full path ends with `.js`
is appended. -/
def walkEntry (dir : String) : FSEntry → List String
  | .file name =>
    if endsWithL (pathJoin dir name) ".js" then [pathJoin dir name] else []
  | .dir name children =>
    if name ∈ excludedDirs then [] else walkList (pathJoin dir name) children

/-- `walk(dir)` over a child list (lines 59–74): the pushes onto
`jsFiles` concatenate in traversal order. -/
def walkList (dir : String) : List FSEntry → List String
  | [] => []
  | e :: es => walkEntry dir e ++ walkList dir es

end

mutual

/-- Analysis definition: drops an excluded-name directory, keeps
everything else, pruning recursively. -/
def pruneEntry : FSEntry → List FSEntry
  | .file name => [.file name]
  | .dir name children =>
    if name ∈ excludedDirs then [] else [.dir name (pruneList children)]

/-- Analysis definition: removes every excluded-name directory from a
tree, at every depth. -/
def pruneList : List FSEntry → List FSEntry
  | [] => []
  | e :: es => pruneEntry e ++ pruneList es

end

mutual

/-- Analysis definition: the `.js` paths of one entry, recursing into
every directory with no exclusion logic at all. -/
def allJsEntry (dir : String) : FSEntry → List String
  | .file name =>
    if endsWithL (pathJoin dir name) ".js" then [pathJoin dir name] else []
  | .dir name children => allJsFiles (pathJoin dir name) children

/-- Analysis definition: plain in-order collection of every `.js` file
of a tree, with no exclusion logic at all. -/
def allJsFiles (dir : String) : List FSEntry → List String
  | [] => []
  | e :: es => allJsEntry dir e ++ allJsFiles dir es

end

/-! ## The table-extraction regular expression (lines 100–103)

`const tableRegex = /(\|.*?\n)+\|.*?/s;` — a backtracking matcher
specialised to this one pattern. With the `s` flag `.` matches every
character including `\n`; `.*?` is lazy; `(…)+` is greedy; the match is
unanchored and `String.prototype.match` (no `g` flag) returns the first
match found: leftmost starting position, and at that position the first
alternative in backtracking order.

Backtracking order at a position: the group iterates as often as it
can, each iteration's lazy `.*?` stopping at the nearest `\n` first and
expanding (across newlines, `s` flag) only on failure of everything
after it; when no further iteration can complete, the mandatory final
`\|` is tried at the current position, and the trailing `.*?` matches
the empty string because nothing follows it.

`contN fuel l` matches `(\|.*?\n)*\|.*?` at the head of `l` in that
order and returns the number of characters consumed; `scanNl` is the
lazy scan of one iteration's `.*?\n` followed by the continuation. The
fuel only bounds recursion depth; every call advances at least one
character, so `l.length + 2` is already enough. -/

mutual

/-- Matches `(\|.*?\n)*\|.*?` at the head, iterate-first. -/
def contN : Nat → List Char → Option Nat
  | 0, _ => none
  | _ + 1, [] => none
  | fuel + 1, c :: rest =>
    if c = '|' then
      match scanNl fuel 1 rest with
      | some n => some n
      | none => some 1
    else none

/-- Lazy `.*?\n` then the continuation: at each `\n` (nearest first)
try `contN` on what follows; on failure expand the `.*?` further. -/
def scanNl : Nat → Nat → List Char → Option Nat
  | 0, _, _ => none
  | _ + 1, _, [] => none
  | fuel + 1, consumed, c :: rest =>
    if c = '\n' then
      match contN fuel rest with
      | some n => some (consumed + 1 + n)
      | none => scanNl fuel (consumed + 1) rest
    else scanNl fuel (consumed + 1) rest

end

/-- Matches the full pattern `(\|.*?\n)+\|.*?` (at least one group
iteration) at the head of `l`. -/
def matchTblAt (fuel : Nat) : List Char → Option Nat
  | [] => none
  | c :: rest => if c = '|' then scanNl fuel 1 rest else none

/-- Unanchored first match: try every starting position left to right. -/
def searchTbl (fuel : Nat) : List Char → Option (List Char)
  | [] => none
  | c :: rest =>
    match matchTblAt fuel (c :: rest) with
    | some n => some ((c :: rest).take n)
    | none => searchTbl fuel rest

/-! ## Summary-table extraction (lines 92–109) -/

/-- `const tableStartMarker = `| ${tableNameHeader}`` (lines 92–93). -/
def tableStartMarker : String := "| Problema Principal"

/-- Lines 94–108: `indexOf` the marker; on a hit, `substring` from it,
`match` the table regex, and `trim` the matched text. Returns the
string pushed into a summary entry, or `none` when no entry is made
(marker missing, no regex match, or — vacuously, since every match has
at least three characters — an empty `match[0]`). -/
def extractSummary (fb : String) : Option String :=
  match findSub fb.data tableStartMarker.data with
  | none => none
  | some i =>
    let tableContent := fb.data.drop i
    match searchTbl (2 * tableContent.length + 4) tableContent with
    | some m => if m.isEmpty then none else some (String.mk (jsTrim m))
    | none => none

/-! ## Report assembly and `main` (lines 45–132)

`svc` is the per-file review oracle: `svc fp = .ok fb` models
`analyzeFile(client, fp)` resolving with feedback text `fb`;
`svc fp = .error msg` models it throwing an error whose `.message` is
`msg` (covering both the `readFileSync` failure and the service-call
failure, which the `try/catch` of the loop handles identically). -/

/-- Line 82: the initial value of `report`. -/
def reportHeader : String := "# Relatório de Revisão AI – Gemini\n\n"

/-- The summary entry pushed at line 107 for file `fp` and extracted
table text `tbl`. -/
def summaryEntry (fp tbl : String) : String :=
  "### Resumo do Arquivo: `" ++ fp ++ "`\n" ++ tbl ++ "\n"

/-- The report section one file contributes: the success section of
line 89, or the failure section of line 113. -/
def sectionFor (svc : String → Except String String) (fp : String) : String :=
  match svc fp with
  | .ok fb => "## Arquivo: " ++ fp ++ "\n\n" ++ fb ++ "\n\n"
  | .error msg => "## Arquivo: " ++ fp ++ "\n\n**Erro ao analisar**: " ++ msg ++ "\n\n"

/-- The summary entry one file contributes, if any: only a successful
review whose feedback yields an extracted table produces one. -/
def summaryFor (svc : String → Except String String) (fp : String) : Option String :=
  match svc fp with
  | .ok fb => (extractSummary fb).map (summaryEntry fp)
  | .error _ => none

/-- One iteration of the `for (const filePath of jsFiles)` loop
(lines 84–115), acting on the state (`report`, `resumoProblemas`). -/
def processFile (svc : String → Except String String)
    (st : String × List String) (fp : String) : String × List String :=
  match svc fp with
  | .ok fb =>
    let report := st.1 ++ ("## Arquivo: " ++ fp ++ "\n\n" ++ fb ++ "\n\n")
    match extractSummary fb with
    | some tbl => (report, st.2 ++ [summaryEntry fp tbl])
    | none => (report, st.2)
  | .error msg =>
    (st.1 ++ ("## Arquivo: " ++ fp ++ "\n\n**Erro ao analisar**: " ++ msg ++ "\n\n"),
     st.2)

/-- The whole per-file loop, from the initial state. -/
def runLoop (svc : String → Except String String) (files : List String) :
    String × List String :=
  files.foldl (processFile svc) (reportHeader, [])

/-- Line 120. -/
def tabelaGeralHeader : String := "## 📊 Resumo de Problemas por Arquivo\n\n"

/-- Line 122. -/
def tabelaGeralIntro : String :=
  "Este é o resumo de problemas extraídos automaticamente do feedback detalhado de cada arquivo. Use-o para priorizar correções:\n\n"

/-- Line 125. -/
def tabelaGeralEmpty : String :=
  "Nenhum arquivo JavaScript encontrado para análise ou não foi possível extrair os resumos das tabelas.\n\n"

/-- Lines 120–126: the consolidated summary block `tabelaGeral`;
`resumoProblemas.join('\n')` is `String.intercalate "\n"`. -/
def tabelaGeral (resumo : List String) : String :=
  tabelaGeralHeader ++
    (if resumo.length > 0 then tabelaGeralIntro ++ String.intercalate "\n" resumo
     else tabelaGeralEmpty)

/-- The full report text written at line 131: loop result, the
separator of line 118, then `tabelaGeral` (lines 128–129). -/
def buildReport (svc : String → Except String String) (files : List String) :
    String :=
  (runLoop svc files).1 ++ "\n---\n\n" ++ tabelaGeral (runLoop svc files).2

/-- Line 51. -/
def keyMissingMsg : String := "GEMINI_API_KEY não encontrada. Abortando análise."

/-- The `.message` of the error `fs.readdirSync("src")` throws when the
root directory does not exist (propagated out of `walk` at line 76). -/
def scandirErrMsg : String := "ENOENT: no such file or directory, scandir 'src'"

/-- JavaScript falsiness of `apiKey` (line 48): `undefined` or `""`. -/
def falsyKey : Option String → Bool
  | none => true
  | some s => s = ""

/-- `main()` (lines 45–132) as a function of its ambient inputs: the
environment's `GEMINI_API_KEY`, the children of the `src` root
directory (`none` when `src` does not exist), and the review oracle.
`.ok r` means the run completed and wrote report text `r`;
`.error msg` means a fatal error escaped `main` into the `.catch` of
line 134. The key check (line 48) precedes the walk (line 76), which
precedes every review call. -/
def mainRun (apiKey : Option String) (srcRoot : Option (List FSEntry))
    (svc : String → Except String String) : Except String String :=
  if falsyKey apiKey then .error keyMissingMsg
  else
    match srcRoot with
    | none => .error scandirErrMsg
    | some ts => .ok (buildReport svc (walkList "src" ts))

/-- Lines 134–138: a completed `main` ends the process with status 0;
a rejected `main` hits the `.catch`, which calls `process.exit(1)`. -/
def exitCode : Except String String → Nat
  | .ok _ => 0
  | .error _ => 1

/-- In-order concatenation of a list of strings. -/
def concatAll : List String → String
  | [] => ""
  | s :: ss => s ++ concatAll ss

/-! ## Concrete data used by the witnesses -/

/-- A small `src` tree: two reviewable files, one non-`.js` file, and
excluded directories at two depths, each hiding a `.js` file. -/
def demoTree : List FSEntry :=
  [.file "app.js",
   .file "README.md",
   .dir "node_modules" [.file "dep.js"],
   .dir "lib" [.file "util.js", .dir "tests" [.file "t.js"]],
   .dir "reports" [.file "old.js"]]

/-- Feedback text ending in a well-formed two-column summary table. -/
def demoFeedback : String :=
  "Pontos fortes do código.\n\n| Problema Principal | Local/Linha Sugerida |\n| --- | --- |\n| Falta de validação | linha 10 |\n"

/-- Feedback text with a table whose header lacks the space after the
pipe, so the exact marker `| Problema Principal` occurs nowhere. -/
def demoFeedbackNoMarker : String :=
  "Revisão.\n\n|Problema Principal | Local |\n| --- | --- |\n| a | b |\n"

/-- An oracle: one file reviews successfully, every other file fails. -/
def demoSvc : String → Except String String :=
  fun p => if p = "src/app.js" then .ok demoFeedback
           else .error "500 Internal Server Error"

/-- An oracle succeeding on every file. -/
def demoSvcOk : String → Except String String := fun _ => .ok demoFeedback

/-- An oracle failing on every file. -/
def demoSvcErr : String → Except String String :=
  fun _ => .error "403 PERMISSION_DENIED"

/-- An oracle agreeing with `demoSvcOk` exactly on `.js` paths. -/
def demoSvcJs : String → Except String String :=
  fun p => if endsWithL p ".js" then .ok demoFeedback
           else .error "arquivo fora do escopo"

/-- An oracle whose feedback never contains the exact marker. -/
def demoSvcNoMarker : String → Except String String :=
  fun _ => .ok demoFeedbackNoMarker

/-- The summary entry the code produces for `src/app.js` under
`demoSvc` (the table's final data row is truncated to a lone `|`). -/
def demoEntry : String :=
  "### Resumo do Arquivo: `src/app.js`\n| Problema Principal | Local/Linha Sugerida |\n| --- | --- |\n|\n"

/-- A `src` tree with no reviewable `.js` file outside excluded
directories. -/
def demoTreeNoJs : List FSEntry :=
  [.file "README.md", .dir "node_modules" [.file "dep.js"]]

/-! ## Helper lemmas -/

lemma allJsFiles_append (dir : String) (l₁ l₂ : List FSEntry) :
    allJsFiles dir (l₁ ++ l₂) = allJsFiles dir l₁ ++ allJsFiles dir l₂ := by
  induction l₁ with
  | nil => simp [allJsFiles]
  | cons e es ih => simp [allJsFiles, ih, List.append_assoc]

mutual

theorem walkEntry_eq_all_prune : ∀ (dir : String) (e : FSEntry),
    walkEntry dir e = allJsFiles dir (pruneEntry e)
  | dir, .file name => by
    simp [walkEntry, pruneEntry, allJsFiles, allJsEntry]
  | dir, .dir name children => by
    by_cases h : name ∈ excludedDirs
    · simp [walkEntry, pruneEntry, h, allJsFiles]
    · simp only [walkEntry, pruneEntry, h, if_false, allJsFiles, allJsEntry]
      rw [walkList_eq_all_prune (pathJoin dir name) children]
      simp [allJsFiles]

theorem walkList_eq_all_prune : ∀ (dir : String) (ts : List FSEntry),
    walkList dir ts = allJsFiles dir (pruneList ts)
  | _, [] => rfl
  | dir, e :: es => by
    rw [walkList, pruneList, allJsFiles_append,
        walkEntry_eq_all_prune dir e, walkList_eq_all_prune dir es]

end

mutual

theorem allJsEntry_ends : ∀ (dir : String) (e : FSEntry) (p : String),
    p ∈ allJsEntry dir e → endsWithL p ".js" = true
  | dir, .file name, p => by
    by_cases h : endsWithL (pathJoin dir name) ".js" = true
    · simp only [allJsEntry, h, if_true, List.mem_singleton]
      intro hp; subst hp; exact h
    · simp [allJsEntry, h]
  | dir, .dir name children, p => by
    simp only [allJsEntry]
    exact allJsFiles_ends (pathJoin dir name) children p

theorem allJsFiles_ends : ∀ (dir : String) (ts : List FSEntry) (p : String),
    p ∈ allJsFiles dir ts → endsWithL p ".js" = true
  | dir, [], p => by simp [allJsFiles]
  | dir, e :: es, p => by
    simp only [allJsFiles, List.mem_append]
    intro hp
    rcases hp with h | h
    · exact allJsEntry_ends dir e p h
    · exact allJsFiles_ends dir es p h

end

lemma processFile_eq (svc : String → Except String String)
    (st : String × List String) (fp : String) :
    processFile svc st fp =
      (st.1 ++ sectionFor svc fp, st.2 ++ (summaryFor svc fp).toList) := by
  unfold processFile sectionFor summaryFor
  cases h : svc fp with
  | ok fb => cases he : extractSummary fb <;> simp [he, summaryEntry]
  | error msg => simp

lemma foldl_processFile (svc : String → Except String String) :
    ∀ (files : List String) (r : String) (acc : List String),
      files.foldl (processFile svc) (r, acc) =
        (r ++ concatAll (files.map (sectionFor svc)),
         acc ++ files.filterMap (summaryFor svc)) := by
  intro files
  induction files with
  | nil => intro r acc; simp [concatAll]
  | cons fp fs ih =>
    intro r acc
    simp only [List.foldl_cons, List.map_cons, concatAll]
    rw [processFile_eq, ih]
    cases hs : summaryFor svc fp <;>
      simp [hs, List.filterMap_cons, String.append_assoc]

lemma runLoop_eq (svc : String → Except String String) (files : List String) :
    runLoop svc files =
      (reportHeader ++ concatAll (files.map (sectionFor svc)),
       files.filterMap (summaryFor svc)) := by
  unfold runLoop
  rw [foldl_processFile]
  simp

lemma buildReport_eq (svc : String → Except String String) (files : List String) :
    buildReport svc files =
      reportHeader ++ concatAll (files.map (sectionFor svc)) ++ "\n---\n\n" ++
        tabelaGeral (files.filterMap (summaryFor svc)) := by
  unfold buildReport
  rw [runLoop_eq]

lemma concatAll_append (l₁ l₂ : List String) :
    concatAll (l₁ ++ l₂) = concatAll l₁ ++ concatAll l₂ := by
  induction l₁ with
  | nil => simp [concatAll]
  | cons s ss ih => simp [concatAll, ih, String.append_assoc]

lemma sectionFor_congr {svc₁ svc₂ : String → Except String String}
    {fp : String} (h : svc₁ fp = svc₂ fp) :
    sectionFor svc₁ fp = sectionFor svc₂ fp := by
  unfold sectionFor; rw [h]

lemma summaryFor_congr {svc₁ svc₂ : String → Except String String}
    {fp : String} (h : svc₁ fp = svc₂ fp) :
    summaryFor svc₁ fp = summaryFor svc₂ fp := by
  unfold summaryFor; rw [h]

lemma buildReport_congr {svc₁ svc₂ : String → Except String String}
    {files : List String} (h : ∀ p ∈ files, svc₁ p = svc₂ p) :
    buildReport svc₁ files = buildReport svc₂ files := by
  rw [buildReport_eq, buildReport_eq,
      List.map_congr_left (fun p hp => sectionFor_congr (h p hp)),
      List.filterMap_congr (fun p hp => summaryFor_congr (h p hp))]

/-! ## Claim theorems -/

/-- C1: for every run that completes (report written), each file path
in the discovered sequence produces exactly one labeled section in the
report — a success section with the feedback text or a failure section
with the error message — with no omissions, no duplicates, and sections
appearing in discovery order: the report is the title followed by the
in-order concatenation of one `sectionFor` per discovered path,
followed by the summary block, and every `sectionFor` is a labeled
success or failure section. -/
theorem c1_one_section_per_discovered_file
    (apiKey : Option String) (srcRoot : Option (List FSEntry))
    (svc : String → Except String String) (r : String)
    (hr : mainRun apiKey srcRoot svc = .ok r) :
    ∃ ts, srcRoot = some ts ∧
      r = reportHeader ++ concatAll ((walkList "src" ts).map (sectionFor svc))
            ++ "\n---\n\n"
            ++ tabelaGeral ((walkList "src" ts).filterMap (summaryFor svc)) ∧
      ∀ fp : String,
        (∃ fb, svc fp = .ok fb ∧
           sectionFor svc fp = "## Arquivo: " ++ fp ++ "\n\n" ++ fb ++ "\n\n") ∨
        (∃ msg, svc fp = .error msg ∧
           sectionFor svc fp =
             "## Arquivo: " ++ fp ++ "\n\n**Erro ao analisar**: " ++ msg ++ "\n\n") := by
  unfold mainRun at hr
  by_cases hk : falsyKey apiKey = true
  · rw [if_pos hk] at hr
    exact absurd hr (by simp)
  · rw [if_neg hk] at hr
    cases srcRoot with
    | none => exact absurd hr (by simp)
    | some ts =>
      rw [Except.ok.injEq] at hr
      subst hr
      refine ⟨ts, rfl, buildReport_eq svc _, fun fp => ?_⟩
      cases h : svc fp with
      | ok fb => exact Or.inl ⟨fb, rfl, by unfold sectionFor; rw [h]⟩
      | error msg => exact Or.inr ⟨msg, rfl, by unfold sectionFor; rw [h]⟩

/-- Witness for C1: a completed concrete run. -/
theorem c1_witness :
    ∃ ts, (some demoTree : Option (List FSEntry)) = some ts ∧
      buildReport demoSvc (walkList "src" demoTree) =
        reportHeader ++ concatAll ((walkList "src" ts).map (sectionFor demoSvc))
          ++ "\n---\n\n"
          ++ tabelaGeral ((walkList "src" ts).filterMap (summaryFor demoSvc)) ∧
      ∀ fp : String,
        (∃ fb, demoSvc fp = .ok fb ∧
           sectionFor demoSvc fp = "## Arquivo: " ++ fp ++ "\n\n" ++ fb ++ "\n\n") ∨
        (∃ msg, demoSvc fp = .error msg ∧
           sectionFor demoSvc fp =
             "## Arquivo: " ++ fp ++ "\n\n**Erro ao analisar**: " ++ msg ++ "\n\n") :=
  c1_one_section_per_discovered_file (some "chave") (some demoTree) demoSvc
    (buildReport demoSvc (walkList "src" demoTree)) rfl

/-- C2 (code bug): on a feedback text whose summary table is
well-formed — header row, separator row, one data row, each on its own
`|`-initial line — the extraction does not reproduce the table: the
regular expression `(\|.*?\n)+\|.*?` can only end a match at a `|`, so
the final data row is truncated to a lone `|`, contradicting the
claimed (and comment-documented, lines 97 and 100–101) behaviour of
capturing header, separator, and all contiguous data rows verbatim. -/
theorem c2_extraction_drops_last_row :
    extractSummary demoFeedback =
      some "| Problema Principal | Local/Linha Sugerida |\n| --- | --- |\n|" ∧
    extractSummary demoFeedback ≠
      some "| Problema Principal | Local/Linha Sugerida |\n| --- | --- |\n| Falta de validação | linha 10 |" := by
  constructor
  · decide
  · decide

/-- C3: if the required secret is absent or empty the run fails
fatally with the message naming the secret and exit status 1, and the
outcome is independent of the filesystem and of the review service —
so no file is read, no discovery happens, and no network call is
attempted before the failure. -/
theorem c3_missing_key_fatal_before_anything
    (apiKey : Option String) (srcRoot : Option (List FSEntry))
    (svc : String → Except String String)
    (hk : falsyKey apiKey = true) :
    mainRun apiKey srcRoot svc = .error keyMissingMsg ∧
    exitCode (mainRun apiKey srcRoot svc) = 1 ∧
    ∀ (srcRoot' : Option (List FSEntry)) (svc' : String → Except String String),
      mainRun apiKey srcRoot svc = mainRun apiKey srcRoot' svc' := by
  simp [mainRun, hk, exitCode]

/-- Witness for C3: the unset key at a concrete filesystem/service. -/
theorem c3_witness :
    mainRun none (some demoTree) demoSvc = .error keyMissingMsg ∧
    exitCode (mainRun none (some demoTree) demoSvc) = 1 ∧
    ∀ (srcRoot' : Option (List FSEntry)) (svc' : String → Except String String),
      mainRun none (some demoTree) demoSvc = mainRun none srcRoot' svc' :=
  c3_missing_key_fatal_before_anything none (some demoTree) demoSvc rfl

/-- C4: a file whose review raises an error gets a section containing
the error message, contributes no summary entry, does not abort the
run, and leaves every preceding and subsequent file's section and
summary entry exactly what they would be on their own. -/
theorem c4_per_file_error_isolated
    (svc : String → Except String String) (pre post : List String)
    (x e : String) (hx : svc x = .error e) :
    runLoop svc (pre ++ x :: post) =
      (reportHeader ++ concatAll (pre.map (sectionFor svc))
         ++ ("## Arquivo: " ++ x ++ "\n\n**Erro ao analisar**: " ++ e ++ "\n\n")
         ++ concatAll (post.map (sectionFor svc)),
       pre.filterMap (summaryFor svc) ++ post.filterMap (summaryFor svc)) := by
  have hsec : sectionFor svc x =
      "## Arquivo: " ++ x ++ "\n\n**Erro ao analisar**: " ++ e ++ "\n\n" := by
    unfold sectionFor; rw [hx]
  have hsum : summaryFor svc x = none := by
    unfold summaryFor; rw [hx]
  rw [runLoop_eq, List.map_append, List.filterMap_append]
  simp [List.filterMap_cons, hsec, hsum, concatAll_append, concatAll,
    String.append_assoc]

/-- Witness for C4: the first file errors, the second still reviews. -/
theorem c4_witness :
    runLoop demoSvc ([] ++ "src/broken.md" :: ["src/app.js"]) =
      (reportHeader ++ concatAll (([] : List String).map (sectionFor demoSvc))
         ++ ("## Arquivo: " ++ "src/broken.md" ++ "\n\n**Erro ao analisar**: "
              ++ "500 Internal Server Error" ++ "\n\n")
         ++ concatAll (["src/app.js"].map (sectionFor demoSvc)),
       ([] : List String).filterMap (summaryFor demoSvc)
         ++ ["src/app.js"].filterMap (summaryFor demoSvc)) :=
  c4_per_file_error_isolated demoSvc [] ["src/app.js"] "src/broken.md"
    "500 Internal Server Error" rfl

/-- C5: the walk equals exclusion-pruning (at every depth) followed by
plain in-order collection of all `.js` files, the exclusion set is
exactly `node_modules`, `tests`, `reports`, and every collected path
ends with `.js`. -/
theorem c5_walk_characterisation :
    excludedDirs = ["node_modules", "tests", "reports"] ∧
    ∀ (dir : String) (ts : List FSEntry),
      walkList dir ts = allJsFiles dir (pruneList ts) ∧
      ∀ p ∈ walkList dir ts, endsWithL p ".js" = true := by
  refine ⟨rfl, fun dir ts => ⟨walkList_eq_all_prune dir ts, fun p hp => ?_⟩⟩
  rw [walkList_eq_all_prune] at hp
  exact allJsFiles_ends dir (pruneList ts) p hp

/-- Witness for C5: the concrete tree with nested excluded dirs. -/
theorem c5_witness :
    walkList "src" demoTree = allJsFiles "src" (pruneList demoTree) ∧
    endsWithL "src/app.js" ".js" = true :=
  ⟨(c5_walk_characterisation.2 "src" demoTree).1,
   (c5_walk_characterisation.2 "src" demoTree).2 "src/app.js" (by decide)⟩

/-- C6: a run over an existing root completes with exit status 0 for
every review oracle (per-file errors included); any fatal error gives
exit status 1; and a missing root directory is a fatal error, not a
silent empty result. -/
theorem c6_exit_codes :
    (∀ (k : Option String) (ts : List FSEntry)
       (svc : String → Except String String), falsyKey k = false →
       mainRun k (some ts) svc = .ok (buildReport svc (walkList "src" ts)) ∧
       exitCode (mainRun k (some ts) svc) = 0) ∧
    (∀ (k : Option String) (root : Option (List FSEntry))
       (svc : String → Except String String) (msg : String),
       mainRun k root svc = .error msg →
       exitCode (mainRun k root svc) = 1) ∧
    (∀ (k : Option String) (svc : String → Except String String),
       falsyKey k = false →
       mainRun k none svc = .error scandirErrMsg ∧
       exitCode (mainRun k none svc) = 1) := by
  refine ⟨fun k ts svc hk => ?_, fun k root svc msg h => ?_, fun k svc hk => ?_⟩
  · simp [mainRun, hk, exitCode]
  · rw [h]; rfl
  · simp [mainRun, hk, exitCode]

/-- Witness for C6: exit 0 although every review errors; exit 1 on a
missing root. -/
theorem c6_witness :
    (mainRun (some "chave") (some demoTree) demoSvcErr =
       .ok (buildReport demoSvcErr (walkList "src" demoTree)) ∧
     exitCode (mainRun (some "chave") (some demoTree) demoSvcErr) = 0) ∧
    (mainRun (some "chave") none demoSvc = .error scandirErrMsg ∧
     exitCode (mainRun (some "chave") none demoSvc) = 1) :=
  ⟨c6_exit_codes.1 (some "chave") demoTree demoSvcErr rfl,
   c6_exit_codes.2.2 (some "chave") demoSvc rfl⟩

/-- C7: after the loop, exactly one consolidated summary block is
appended; its entries are the loop's extracted entries in
file-processing order, each a sub-heading naming its source file; with
at least one entry the block lists them, with zero entries (zero files
included) it is the single explanatory placeholder. -/
theorem c7_consolidated_summary
    (svc : String → Except String String) (files : List String) :
    (runLoop svc files).2 = files.filterMap (summaryFor svc) ∧
    buildReport svc files =
      (runLoop svc files).1 ++ "\n---\n\n" ++ tabelaGeral ((runLoop svc files).2) ∧
    (∀ fp s, summaryFor svc fp = some s → ∃ tbl, s = summaryEntry fp tbl) ∧
    tabelaGeral [] = tabelaGeralHeader ++ tabelaGeralEmpty ∧
    (∀ rs : List String, rs ≠ [] →
       tabelaGeral rs =
         tabelaGeralHeader ++ tabelaGeralIntro ++ String.intercalate "\n" rs) := by
  refine ⟨?_, rfl, ?_, ?_, ?_⟩
  · rw [runLoop_eq]
  · intro fp s hs
    unfold summaryFor at hs
    cases h : svc fp with
    | ok fb =>
      rw [h] at hs
      simp only [Option.map_eq_some'] at hs
      obtain ⟨tbl, _, htbl⟩ := hs
      exact ⟨tbl, htbl.symm⟩
    | error msg => rw [h] at hs; simp at hs
  · simp [tabelaGeral]
  · intro rs hrs
    unfold tabelaGeral
    rw [if_pos (List.length_pos.mpr hrs), ← String.append_assoc]

/-- Witness for C7: one extracted entry, its sub-heading shape, and
the nonempty-list rendering. -/
theorem c7_witness :
    ((runLoop demoSvc ["src/app.js"]).2 =
       ["src/app.js"].filterMap (summaryFor demoSvc)) ∧
    (∃ tbl, demoEntry = summaryEntry "src/app.js" tbl) ∧
    tabelaGeral [demoEntry] =
      tabelaGeralHeader ++ tabelaGeralIntro ++ String.intercalate "\n" [demoEntry] :=
  ⟨(c7_consolidated_summary demoSvc ["src/app.js"]).1,
   (c7_consolidated_summary demoSvc ["src/app.js"]).2.2.1 "src/app.js" demoEntry
     (by decide),
   (c7_consolidated_summary demoSvc ["src/app.js"]).2.2.2.2 [demoEntry] (by simp)⟩

/-- C8: the pipeline is deterministic and the report is a function of
the discovered file sequence and of the service's responses on it: two
runs over the same tree whose oracles agree on every discovered file
produce byte-identical results. -/
theorem c8_service_determines_report
    (k : Option String) (root : Option (List FSEntry))
    (svc₁ svc₂ : String → Except String String)
    (h : ∀ ts, root = some ts → ∀ p ∈ walkList "src" ts, svc₁ p = svc₂ p) :
    mainRun k root svc₁ = mainRun k root svc₂ := by
  by_cases hk : falsyKey k = true
  · simp [mainRun, hk]
  · cases root with
    | none => rfl
    | some ts =>
      have hk' : falsyKey k = false := by
        cases hfk : falsyKey k
        · rfl
        · exact absurd hfk hk
      simp only [mainRun, hk', Bool.false_eq_true, if_false, Except.ok.injEq]
      exact buildReport_congr (h ts rfl)

/-- Witness for C8: two oracles that differ off the discovered files
but agree on them give the same run result. -/
theorem c8_witness :
    mainRun (some "chave") (some demoTree) demoSvcOk =
      mainRun (some "chave") (some demoTree) demoSvcJs :=
  c8_service_determines_report (some "chave") (some demoTree) demoSvcOk demoSvcJs
    (by
      intro ts h p hp
      injection h with h'
      subst h'
      have hw : walkList "src" demoTree = ["src/app.js", "src/lib/util.js"] := by
        decide
      rw [hw] at hp
      fin_cases hp <;> rfl)

/-- C9: only the exact substring `| Problema Principal` triggers
extraction — when a successful feedback does not contain it, no
summary entry is produced for the file, while the file's section still
carries the full feedback text. -/
theorem c9_exact_marker_required
    (svc : String → Except String String) (fp fb : String)
    (hok : svc fp = .ok fb)
    (hmk : findSub fb.data tableStartMarker.data = none) :
    summaryFor svc fp = none ∧
    sectionFor svc fp = "## Arquivo: " ++ fp ++ "\n\n" ++ fb ++ "\n\n" := by
  constructor
  · simp [summaryFor, hok, extractSummary, hmk]
  · unfold sectionFor; rw [hok]

/-- Witness for C9: a feedback whose table header has no space after
the pipe produces no entry although its section keeps the feedback. -/
theorem c9_witness :
    summaryFor demoSvcNoMarker "src/app.js" = none ∧
    sectionFor demoSvcNoMarker "src/app.js" =
      "## Arquivo: " ++ "src/app.js" ++ "\n\n" ++ demoFeedbackNoMarker ++ "\n\n" :=
  c9_exact_marker_required demoSvcNoMarker "src/app.js" demoFeedbackNoMarker rfl
    (by decide)

/-- C10: every written report starts with the fixed title line and
ends with the horizontal-rule separator followed by the one
consolidated summary block; with zero discovered files the report is
still written and is exactly title, separator, and placeholder block. -/
theorem c10_report_frame :
    reportHeader = "# Relatório de Revisão AI – Gemini\n\n" ∧
    (∀ (svc : String → Except String String) (files : List String),
       ∃ mid, buildReport svc files =
         reportHeader ++ mid ++ "\n---\n\n" ++
           tabelaGeral (files.filterMap (summaryFor svc))) ∧
    (∀ (k : Option String) (ts : List FSEntry)
       (svc : String → Except String String),
       falsyKey k = false → walkList "src" ts = [] →
       mainRun k (some ts) svc =
         .ok (reportHeader ++ "\n---\n\n" ++ tabelaGeral [])) := by
  refine ⟨rfl,
    fun svc files =>
      ⟨concatAll (files.map (sectionFor svc)), buildReport_eq svc files⟩,
    ?_⟩
  intro k ts svc hk hw
  simp only [mainRun, hk, if_false, hw, Except.ok.injEq]
  rfl

/-- Witness for C10: a tree whose only `.js` files sit in excluded
directories still yields a written report with the fixed frame. -/
theorem c10_witness :
    mainRun (some "chave") (some demoTreeNoJs) demoSvc =
      .ok (reportHeader ++ "\n---\n\n" ++ tabelaGeral []) :=
  c10_report_frame.2.2 (some "chave") demoTreeNoJs demoSvc rfl (by decide)

end AiReview
